import Mathlib

/-!
Verification of the size-bounded chunking and record-normalization pipeline of
`chunk_script.py`, together with the redaction step of the distributed variant
`rag_distributed_etl_job.py`.

The embedding is shallow: Python strings become Lean `String`s, the UTF-8
encoded length of a Python string (`len(s.encode('utf-8'))`) becomes a sum of
`Char.utf8Size` over the character list, JSON values become the inductive
`JValue`, and the mutable module-level counters of `split_and_process_jsonl`
become an explicit state record threaded through a fold over the input lines.
A line of the input file is modelled as `Option RawRecord`: `some r` for a
line that `json.loads` parses to the record `r`, `none` for a line on which
`json.loads` raises `JSONDecodeError`.  (The JSON parser itself is an external
library and is not part of the verified code.)
-/

/-- Byte length of a character list under UTF-8 encoding. -/
def uLen (l : List Char) : Nat := (l.map Char.utf8Size).sum

/-- Byte length of a string under UTF-8 encoding, modelling Python's
`len(s.encode('utf-8'))`. -/
def utf8Len (s : String) : Nat := uLen s.data

/-- Sum of the UTF-8 byte lengths of a list of strings (no separators). -/
def sumUtf8 (l : List String) : Nat := (l.map utf8Len).sum

/-- ASCII lowering of a string, modelling Python `str.lower` on ASCII text
(the source only ever compares ASCII extension and trigger strings). -/
def lowerStr (s : String) : String := ⟨s.data.map Char.toLower⟩

/-- Substring containment on character lists, modelling the Python operator
`pat in s`. -/
def containsSub (l pat : List Char) : Bool := l.tails.any fun t => pat.isPrefixOf t

/-- Python `sep.join(parts)`: parts joined by the separator. -/
def joinSep (sep : String) : List String → String
  | [] => ""
  | [x] => x
  | x :: y :: xs => x ++ sep ++ joinSep sep (y :: xs)

/-- Concatenation of the narrative lists of a list of (index, narratives)
chunks, in emission order. -/
def chunksTexts : List (Nat × List String) → List String
  | [] => []
  | c :: cs => c.2 ++ chunksTexts cs

/-- A JSON value as produced by `json.loads`.  A Python float is modelled by
its `str()` rendering, which is the only way the source observes it.  Booleans
are kept separate from integers, but note that Python's `isinstance(v, int)`
is true for booleans. -/
inductive JValue where
  | jnull : JValue
  | jbool : Bool → JValue
  | jint : Int → JValue
  | jfloat : String → JValue
  | jstr : String → JValue
  | jlist : List JValue → JValue
  | jdict : List (String × JValue) → JValue

/-- A parsed JSON object: the ordered list of its key-value pairs, in
insertion order, with keys unique (as produced by `json.loads`). -/
def RawRecord := List (String × JValue)

/-- The check `isinstance(value, (int, float, str))` from
`process_json_record`.  Booleans satisfy it because `bool` is a subclass of
`int` in Python. -/
def isScalar : JValue → Bool
  | .jint _ => true
  | .jfloat _ => true
  | .jstr _ => true
  | .jbool _ => true
  | _ => false

/-- The check `isinstance(value, dict)`. -/
def isDict : JValue → Bool
  | .jdict _ => true
  | _ => false

/-- Entries of a JSON object (empty for non-objects; only used under an
`isDict` guard). -/
def dictEntries : JValue → List (String × JValue)
  | .jdict l => l
  | _ => []

/-- Python `d.get(key, default)` on a parsed JSON object. -/
def dictGet (entries : List (String × JValue)) (key : String) (dflt : JValue) : JValue :=
  match entries.find? (fun kv => kv.1 == key) with
  | some kv => kv.2
  | none => dflt

/-- A single apostrophe, as a string. -/
def quoteStr : String := ⟨['\x27']⟩

mutual

/-- Python `repr` of a JSON value, as far as the source can observe it
(an f-string renders containers via `repr`).  String escaping inside `repr`
is not modelled; the source never feeds strings needing escapes to it. -/
def pyRepr : JValue → String
  | .jnull => "None"
  | .jbool b => if b then "True" else "False"
  | .jint n => toString n
  | .jfloat s => s
  | .jstr s => quoteStr ++ s ++ quoteStr
  | .jlist xs => "[" ++ joinSep ", " (pyReprList xs) ++ "]"
  | .jdict xs => "\x7b" ++ joinSep ", " (pyReprDict xs) ++ "\x7d"

/-- `repr` of the elements of a JSON array. -/
def pyReprList : List JValue → List String
  | [] => []
  | x :: xs => pyRepr x :: pyReprList xs

/-- `repr` of the entries of a JSON object. -/
def pyReprDict : List (String × JValue) → List String
  | [] => []
  | kv :: xs => (quoteStr ++ kv.1 ++ quoteStr ++ ": " ++ pyRepr kv.2) :: pyReprDict xs

end

/-- Python `str(value)` / f-string rendering of a JSON value. -/
def pyStr : JValue → String
  | .jnull => "None"
  | .jbool b => if b then "True" else "False"
  | .jint n => toString n
  | .jfloat s => s
  | .jstr s => s
  | .jlist xs => pyRepr (.jlist xs)
  | .jdict xs => pyRepr (.jdict xs)

/-- Worker for `pyTitle`: the boolean records whether the previous character
was a letter. -/
def pyTitleGo : Bool → List Char → List Char
  | _, [] => []
  | prevAlpha, c :: cs =>
    if c.isAlpha then (if prevAlpha then c.toLower else c.toUpper) :: pyTitleGo true cs
    else c :: pyTitleGo false cs

/-- Python `str.title()`: the first letter of each run of letters is
uppercased, the following letters lowercased, other characters unchanged
(ASCII model of the letter test). -/
def pyTitle (s : String) : String := ⟨pyTitleGo false s.data⟩

/-- Python `key.replace('_', ' ')`: the pattern is a single character, so the
replacement is a character map. -/
def underscoresToSpaces (s : String) : String :=
  ⟨s.data.map fun c => if c = '_' then ' ' else c⟩

/-- `MAX_JSON_CHUNK_SIZE_BYTES = 40 * 1024 * 1024` from `chunk_script.py`. -/
def MAX_JSON_CHUNK_SIZE_BYTES : Nat := 40 * 1024 * 1024

/-- One iteration of the `for key, value in record.items()` loop of
`process_json_record`: reserved keys are skipped, a dict under the key
`patient_details` renders the labeled patient sentence with placeholder
defaults, scalars render the title-cased sentence, everything else is
silently dropped. -/
def recordStep (narrative_parts : List String) (kv : String × JValue) : List String :=
  if kv.1 = ("id") ∨ kv.1 = ("timestamp") ∨ kv.1 = ("internal_hash") then
    narrative_parts
  else if kv.1 = ("patient_details") ∧ isDict kv.2 = true then
    narrative_parts ++
      [("Patient ID: ") ++ pyStr (dictGet (dictEntries kv.2) ("patient_id") (.jstr ("Unknown"))) ++
        (". Diagnosis: ") ++ pyStr (dictGet (dictEntries kv.2) ("diagnosis") (.jstr ("N/A"))) ++ (".")]
  else if isScalar kv.2 = true then
    narrative_parts ++
      [("The ") ++ pyTitle (underscoresToSpaces kv.1) ++ (" is: ") ++ pyStr kv.2 ++ (".")]
  else narrative_parts

/-- `process_json_record` from `chunk_script.py`: the source-file tag followed
by the rendered sentences, joined by single spaces. -/
def process_json_record (record : RawRecord) (original_filename : String) : String :=
  ("SOURCE FILE: ") ++ original_filename ++ (". ") ++
    joinSep (" ") (List.foldl recordStep [] record)

/-- The mutable state of `split_and_process_jsonl`: the running byte counter,
the next chunk index, the in-memory narrative list, the chunks written so far
(with their indices, in emission order), and the 0-based positions of skipped
malformed lines (the argument of the warning print). -/
structure EtlState where
  current_chunk_size : Nat
  chunk_file_index : Nat
  output_data_list : List String
  written : List (Nat × List String)
  warnings : List Nat
deriving Repr, DecidableEq

/-- The state at the top of `split_and_process_jsonl`. -/
def startState : EtlState := ⟨0, 0, [], [], []⟩

/-- The body of the `for line_number, line in enumerate(infile)` loop for one
line: a malformed line logs its position and is skipped; a parsed record is
normalized, the rollover check fires when the byte counter is positive and
would be pushed past the ceiling (writing the current chunk and resetting),
then the narrative is appended and counted. -/
def processLine (base : String) (st : EtlState) (ln : Nat × Option RawRecord) : EtlState :=
  match ln.2 with
  | none => { st with warnings := st.warnings ++ [ln.1] }
  | some record =>
    let rag_text := process_json_record record base
    let len := utf8Len rag_text
    let st' :=
      if MAX_JSON_CHUNK_SIZE_BYTES < st.current_chunk_size + len ∧ 0 < st.current_chunk_size then
        { st with
          written := st.written ++ [(st.chunk_file_index, st.output_data_list)],
          current_chunk_size := 0,
          output_data_list := [],
          chunk_file_index := st.chunk_file_index + 1 }
      else st
    { st' with
      output_data_list := st'.output_data_list ++ [rag_text],
      current_chunk_size := st'.current_chunk_size + len }

/-- `split_and_process_jsonl` from `chunk_script.py`, as a function from the
parsed input lines (in file order) to the final state; after the loop, a
non-empty in-memory list is written as the trailing chunk. -/
def split_and_process_jsonl (lines : List (Option RawRecord)) (base : String) : EtlState :=
  let final := List.foldl (processLine base) startState lines.enum
  if final.output_data_list = [] then final
  else { final with
    written := final.written ++ [(final.chunk_file_index, final.output_data_list)] }

/-- The ordered list of narratives derived from the syntactically valid lines
of the input. -/
def narrativesOf (lines : List (Option RawRecord)) (base : String) : List String :=
  (lines.filterMap id).map fun r => process_json_record r base

/-- All narratives held by a state: the written chunks' texts in emission
order followed by the in-memory list. -/
def gathered (st : EtlState) : List String :=
  chunksTexts st.written ++ st.output_data_list

/-- The fixed paragraph-break separator of `write_json_chunk`. -/
def json_chunk_separator : String := "\n\n---\n\n"

/-- The file content written by `write_json_chunk`: the narratives joined by
the paragraph-break separator. -/
def write_json_chunk_content (data_list : List String) : String :=
  joinSep json_chunk_separator data_list

/-- Python `format(n, '03d')`: the decimal digits of `n`, left-padded with
zeros to width three (numbers of four or more digits print unpadded). -/
def format03d (n : Nat) : String :=
  if n < 1000 then ⟨[Nat.digitChar (n / 100), Nat.digitChar (n / 10 % 10), Nat.digitChar (n % 10)]⟩
  else Nat.repr n

/-- The artifact filename built by `write_json_chunk`. -/
def write_json_chunk_filename (base_name : String) (index : Nat) : String :=
  base_name ++ ("_part_") ++ format03d index ++ (".txt")

/-- The disposition a file entry receives in `process_unstructured_files`. -/
inductive Disposition where
  | quarantine : Disposition
  | passThrough : Disposition
  | deferred : Disposition
  | unknown : Disposition
deriving Repr, DecidableEq

/-- Python `s.endswith(tuple)`: true when some listed string is a suffix. -/
def endsWithAny (s : String) (sufs : List String) : Bool :=
  sufs.any fun suf => suf.data.isSuffixOf s.data

/-- The image extension table of `process_unstructured_files`. -/
def image_extensions : List String := [".png", ".jpg", ".jpeg", ".gif"]

/-- The document extension table of `process_unstructured_files`. -/
def document_extensions : List String := [".docx", ".pdf", ".xlsx", ".pptx", ".eml"]

/-- The classification chain of `process_unstructured_files` for one file
entry, first match wins: images are quarantined, documents passed through,
`.jsonl` files under a `json/` directory deferred to the splitting pipeline,
everything else left unknown. -/
def classify_file (subdir filename : String) : Disposition :=
  if endsWithAny (lowerStr filename) image_extensions = true then .quarantine
  else if endsWithAny (lowerStr filename) document_extensions = true then .passThrough
  else if (".jsonl").data.isSuffixOf (lowerStr filename).data = true ∧
      containsSub subdir.data (("json/").data) = true then .deferred
  else .unknown

/-- The audit marker prepended by the redaction step of
`rag_distributed_etl_job.py`. -/
def redaction_marker : String := "[HIPAA REDACTION APPLIED] "

/-- The trigger test of the redaction step:
`"patient" in text.lower() or "ssn" in text.lower()`. -/
def containsTrigger (text : String) : Bool :=
  containsSub (lowerStr text).data (("patient").data) ||
    containsSub (lowerStr text).data (("ssn").data)

/-- Fuel-indexed worker for `pyReplace`; the fuel is the length of the
scanned list, so it never runs out. -/
def replaceFuel (pat sub : List Char) : Nat → List Char → List Char
  | _, [] => []
  | 0, l => l
  | fuel + 1, c :: rest =>
    if pat.isPrefixOf (c :: rest) then
      sub ++ replaceFuel pat sub fuel (List.drop (pat.length - 1) rest)
    else c :: replaceFuel pat sub fuel rest

/-- Python `s.replace(pat, sub)` for a non-empty pattern: left-to-right,
non-overlapping replacement of every occurrence. -/
def pyReplace (s pat sub : String) : String :=
  ⟨replaceFuel pat.data sub.data s.data.length s.data⟩

/-- Python slicing `text[:n]` (by code point, as Python strings index by code
point). -/
def takeChars (n : Nat) (s : String) : String := ⟨s.data.take n⟩

/-- The per-row body of `process_content_udf` in `rag_distributed_etl_job.py`:
the extension-specific extraction placeholders, then the trigger-based
redaction (mask the known literal, prepend the audit marker).  `str(content)`
on string content is the identity. -/
def process_content_udf (content ext : String) : String :=
  let text := content
  let text :=
    if ext = (".docx") ∨ ext = (".pptx") then
      ("DOCUMENT TEXT EXTRACTED: ") ++ takeChars 500 text ++ ("...")
    else if ext = (".xlsx") ∨ ext = (".csv") then
      ("TABULAR DATA NARRATIVE: Summary of sheet: ") ++ takeChars 500 text ++ ("...")
    else text
  if containsTrigger text = true then
    redaction_marker ++ pyReplace text ("John Smith") ("[PHI_NAME_MASKED]")
  else text

/-- Spec-side rendering of one field, following the claim text for the
normalizer: reserved keys contribute nothing; a dict value under the key
`patient_details` renders the labeled patient sentence with placeholders
`Unknown` and `N/A` for missing sub-fields; an int, float or str value
renders the title-cased scalar sentence; nothing else contributes. -/
def renderField_spec (k : String) (v : JValue) : Option String :=
  if k = ("id") ∨ k = ("timestamp") ∨ k = ("internal_hash") then none
  else if k = ("patient_details") ∧ isDict v = true then
    some (("Patient ID: ") ++ pyStr (dictGet (dictEntries v) ("patient_id") (.jstr ("Unknown"))) ++
      (". Diagnosis: ") ++ pyStr (dictGet (dictEntries v) ("diagnosis") (.jstr ("N/A"))) ++ ("."))
  else if isScalar v = true then
    some (("The ") ++ pyTitle (underscoresToSpaces k) ++ (" is: ") ++ pyStr v ++ ("."))
  else none

/-- Spec-side narrative of a record, following the claim text: the string
`SOURCE FILE: ` with the filename and `. `, followed by the rendered
sentences joined by single spaces. -/
def narrative_spec (record : RawRecord) (original_filename : String) : String :=
  ("SOURCE FILE: ") ++ original_filename ++ (". ") ++
    joinSep (" ") (List.filterMap (fun kv : String × JValue => renderField_spec kv.1 kv.2) record)

/-- The size-bound predicate of the spec for one chunk's narrative list. -/
def chunkOK (c : List String) : Prop :=
  sumUtf8 c ≤ MAX_JSON_CHUNK_SIZE_BYTES ∨ c.length = 1

/-- Narratives of the parsed records among a list of (line number, parse
result) pairs, in order. -/
def pairsNarratives (base : String) : List (Nat × Option RawRecord) → List String
  | [] => []
  | p :: ps => (p.2.map fun r => process_json_record r base).toList ++ pairsNarratives base ps

/-- The loop invariant of `split_and_process_jsonl`: the byte counter equals
the byte sum of the in-memory list, every buffered narrative is non-empty,
and the in-memory list as well as every written chunk satisfies the size
bound or is a singleton. -/
def Inv1 (st : EtlState) : Prop :=
  st.current_chunk_size = sumUtf8 st.output_data_list ∧
    (∀ t ∈ st.output_data_list, 0 < utf8Len t) ∧
    chunkOK st.output_data_list ∧
    ∀ c ∈ st.written, chunkOK c.2

/-- A 20971493-character narrative payload; together with the fixed
rendering overhead it yields a narrative of exactly 20 MB. -/
def bigPayload20 : String := ⟨List.replicate 20971493 'a'⟩

/-- A record normalizing to a narrative of exactly 20 MB (20971520 bytes). -/
def rec20 : RawRecord := [(("k"), JValue.jstr bigPayload20)]

/-- A 5242853-character narrative payload, yielding a 5 MB narrative. -/
def bigPayload5 : String := ⟨List.replicate 5242853 'a'⟩

/-- A record normalizing to a narrative of exactly 5 MB (5242880 bytes). -/
def rec5 : RawRecord := [(("k"), JValue.jstr bigPayload5)]

/-- A record whose narrative contains the trigger token and the known
identifying literal. -/
def rec_patient : RawRecord :=
  [(("patient_details"), JValue.jdict [(("patient_id"), JValue.jstr ("John Smith"))])]

/-- The narrative of `rec_patient`. -/
def narrative_patient : String := process_json_record rec_patient ("f")

/-! ### Byte-length and list helper lemmas -/

theorem uLen_append (a b : List Char) : uLen (a ++ b) = uLen a + uLen b := by
  simp [uLen]

theorem utf8Len_append (s t : String) : utf8Len (s ++ t) = utf8Len s + utf8Len t := by
  obtain ⟨a⟩ := s
  obtain ⟨b⟩ := t
  exact uLen_append a b

theorem uLen_replicate (n : Nat) : uLen (List.replicate n 'a') = n := by
  induction n with
  | zero => rfl
  | succ k ih =>
    have h1 : Char.utf8Size 'a' = 1 := by decide
    rw [List.replicate_succ]
    simp only [uLen, List.map_cons, List.sum_cons, h1] at ih ⊢
    omega

theorem sumUtf8_nil : sumUtf8 [] = 0 := rfl

theorem sumUtf8_cons (t : String) (l : List String) :
    sumUtf8 (t :: l) = utf8Len t + sumUtf8 l := by
  simp [sumUtf8]

theorem sumUtf8_append (l : List String) (t : String) :
    sumUtf8 (l ++ [t]) = sumUtf8 l + utf8Len t := by
  simp [sumUtf8]

theorem sumUtf8_one (t : String) : sumUtf8 [t] = utf8Len t := by
  simp [sumUtf8]

theorem chunksTexts_append (a b : List (Nat × List String)) :
    chunksTexts (a ++ b) = chunksTexts a ++ chunksTexts b := by
  induction a with
  | nil => rfl
  | cons c cs ih => simp [chunksTexts, ih]

theorem empty_of_sumUtf8_zero (l : List String)
    (hz : sumUtf8 l = 0) (hp : ∀ t ∈ l, 0 < utf8Len t) : l = [] := by
  cases l with
  | nil => rfl
  | cons t ts =>
    rw [sumUtf8_cons] at hz
    have := hp t (by simp)
    omega

theorem posLen (r : RawRecord) (base : String) :
    0 < utf8Len (process_json_record r base) := by
  have h13 : utf8Len ("SOURCE FILE: ") = 13 := by decide
  calc 0 < 13 := by omega
    _ ≤ utf8Len (process_json_record r base) := by
        rw [process_json_record, utf8Len_append, utf8Len_append, utf8Len_append, h13]
        omega

/-! ### Step lemmas for processLine -/

theorem processLine_none (base : String) (st : EtlState) (n : Nat) :
    processLine base st (n, none) = { st with warnings := st.warnings ++ [n] } := rfl

theorem processLine_some (base : String) (st : EtlState) (n : Nat) (r : RawRecord) :
    processLine base st (n, some r) =
      if MAX_JSON_CHUNK_SIZE_BYTES <
          st.current_chunk_size + utf8Len (process_json_record r base) ∧
          0 < st.current_chunk_size then
        ⟨utf8Len (process_json_record r base), st.chunk_file_index + 1,
          [process_json_record r base],
          st.written ++ [(st.chunk_file_index, st.output_data_list)], st.warnings⟩
      else
        ⟨st.current_chunk_size + utf8Len (process_json_record r base), st.chunk_file_index,
          st.output_data_list ++ [process_json_record r base], st.written, st.warnings⟩ := by
  by_cases h : MAX_JSON_CHUNK_SIZE_BYTES <
      st.current_chunk_size + utf8Len (process_json_record r base) ∧ 0 < st.current_chunk_size
  · simp [processLine, h]
  · simp [processLine, h]

theorem gathered_processLine (base : String) (st : EtlState) (ln : Nat × Option RawRecord) :
    gathered (processLine base st ln) =
      gathered st ++ (ln.2.map fun r => process_json_record r base).toList := by
  obtain ⟨n, l⟩ := ln
  cases l with
  | none => simp [processLine_none, gathered]
  | some r =>
    rw [processLine_some]
    by_cases h : MAX_JSON_CHUNK_SIZE_BYTES <
        st.current_chunk_size + utf8Len (process_json_record r base) ∧ 0 < st.current_chunk_size
    · rw [if_pos h]
      simp [gathered, chunksTexts_append, chunksTexts]
    · rw [if_neg h]
      simp [gathered]

theorem warnings_processLine (base : String) (st : EtlState) (ln : Nat × Option RawRecord) :
    (processLine base st ln).warnings =
      st.warnings ++ (if ln.2.isNone then [ln.1] else []) := by
  obtain ⟨n, l⟩ := ln
  cases l with
  | none => simp [processLine_none]
  | some r =>
    rw [processLine_some]
    by_cases h : MAX_JSON_CHUNK_SIZE_BYTES <
        st.current_chunk_size + utf8Len (process_json_record r base) ∧ 0 < st.current_chunk_size
    · rw [if_pos h]; simp
    · rw [if_neg h]; simp

theorem inv_processLine (base : String) (st : EtlState) (ln : Nat × Option RawRecord)
    (h : Inv1 st) : Inv1 (processLine base st ln) := by
  obtain ⟨hsize, hpos, hcur, hwr⟩ := h
  obtain ⟨n, l⟩ := ln
  cases l with
  | none => exact ⟨hsize, hpos, hcur, hwr⟩
  | some r =>
    rw [processLine_some]
    by_cases h : MAX_JSON_CHUNK_SIZE_BYTES <
        st.current_chunk_size + utf8Len (process_json_record r base) ∧ 0 < st.current_chunk_size
    · rw [if_pos h]
      refine ⟨by simp [sumUtf8_one], ?_, Or.inr (by simp), ?_⟩
      · intro t ht
        simp at ht
        subst ht
        exact posLen r base
      · intro c hc
        rw [List.mem_append] at hc
        rcases hc with hc | hc
        · exact hwr c hc
        · simp at hc
          subst hc
          exact hcur
    · rw [if_neg h]
      refine ⟨by rw [sumUtf8_append, hsize], ?_, ?_, hwr⟩
      · intro t ht
        rw [List.mem_append] at ht
        rcases ht with ht | ht
        · exact hpos t ht
        · simp at ht
          subst ht
          exact posLen r base
      · by_cases hA : MAX_JSON_CHUNK_SIZE_BYTES <
            st.current_chunk_size + utf8Len (process_json_record r base)
        · have hz : st.current_chunk_size = 0 := by
            rcases not_and_or.mp h with hc | hc
            · exact absurd hA hc
            · omega
          have : st.output_data_list = [] :=
            empty_of_sumUtf8_zero _ (by omega) hpos
          rw [this]
          exact Or.inr (by simp)
        · left
          rw [sumUtf8_append]
          omega

/-! ### Fold lemmas -/

theorem gathered_foldl (base : String) (ps : List (Nat × Option RawRecord)) (st : EtlState) :
    gathered (List.foldl (processLine base) st ps) = gathered st ++ pairsNarratives base ps := by
  induction ps generalizing st with
  | nil => simp [pairsNarratives]
  | cons p ps ih =>
    rw [List.foldl_cons, ih, gathered_processLine]
    simp [pairsNarratives]

theorem inv_foldl (base : String) (ps : List (Nat × Option RawRecord)) (st : EtlState)
    (h : Inv1 st) : Inv1 (List.foldl (processLine base) st ps) := by
  induction ps generalizing st with
  | nil => exact h
  | cons p ps ih => exact ih _ (inv_processLine base st p h)

theorem pairsNarratives_enumFrom (base : String) (lines : List (Option RawRecord)) (k : Nat) :
    pairsNarratives base (List.enumFrom k lines) = narrativesOf lines base := by
  induction lines generalizing k with
  | nil => rfl
  | cons l ls ih =>
    cases l with
    | none => simp [List.enumFrom, pairsNarratives, narrativesOf, List.filterMap_cons] at ih ⊢
              exact ih (k + 1)
    | some r => simp [List.enumFrom, pairsNarratives, narrativesOf, List.filterMap_cons] at ih ⊢
                exact ih (k + 1)

theorem inv_start : Inv1 startState := by
  refine ⟨rfl, ?_, Or.inl ?_, ?_⟩ <;> simp [startState, chunkOK, sumUtf8]

theorem pairsNarratives_enum (base : String) (lines : List (Option RawRecord)) :
    pairsNarratives base lines.enum = narrativesOf lines base :=
  pairsNarratives_enumFrom base lines 0

theorem gathered_split (lines : List (Option RawRecord)) (base : String) :
    chunksTexts (split_and_process_jsonl lines base).written = narrativesOf lines base := by
  have hg := gathered_foldl base lines.enum startState
  rw [pairsNarratives_enum] at hg
  rw [split_and_process_jsonl]
  set final := List.foldl (processLine base) startState lines.enum with hfinal
  have hg' : chunksTexts final.written ++ final.output_data_list = narrativesOf lines base := by
    simpa [gathered, startState, chunksTexts] using hg
  by_cases he : final.output_data_list = []
  · rw [if_pos he]
    rw [he, List.append_nil] at hg'
    exact hg'
  · rw [if_neg he]
    simp only [chunksTexts_append, chunksTexts, List.append_nil]
    exact hg'

theorem emitted_chunkOK (lines : List (Option RawRecord)) (base : String) :
    ∀ c ∈ (split_and_process_jsonl lines base).written, chunkOK c.2 := by
  rw [split_and_process_jsonl]
  have hinv := inv_foldl base lines.enum startState inv_start
  set final := List.foldl (processLine base) startState lines.enum with hfinal
  obtain ⟨hsize, hpos, hcur, hwr⟩ := hinv
  by_cases he : final.output_data_list = []
  · rw [if_pos he]
    exact hwr
  · rw [if_neg he]
    intro c hc
    rw [List.mem_append] at hc
    rcases hc with hc | hc
    · exact hwr c hc
    · simp at hc
      subst hc
      exact hcur

/-! ### More helper lemmas: warnings, concrete narrative sizes, separators -/

theorem warnings_split (lines : List (Option RawRecord)) (base : String) :
    (split_and_process_jsonl lines base).warnings =
      (List.foldl (processLine base) startState lines.enum).warnings := by
  rw [split_and_process_jsonl]
  by_cases he : (List.foldl (processLine base) startState lines.enum).output_data_list = []
  · rw [if_pos he]
  · rw [if_neg he]

theorem data_append (s t : String) : (s ++ t).data = s.data ++ t.data := by
  obtain ⟨a⟩ := s
  obtain ⟨b⟩ := t
  rfl

theorem narr_payload (l : List Char) :
    (process_json_record [(("k"), JValue.jstr ⟨l⟩)] ("f")).data =
      ("SOURCE FILE: f. The K is: ").data ++ (l ++ (".").data) := rfl

theorem utf8Len_narr_payload (l : List Char) :
    utf8Len (process_json_record [(("k"), JValue.jstr ⟨l⟩)] ("f")) = 27 + uLen l := by
  rw [utf8Len, narr_payload, uLen_append, uLen_append]
  have h1 : uLen (("SOURCE FILE: f. The K is: ").data) = 26 := by decide
  have h2 : uLen ((".").data) = 1 := by decide
  omega

theorem utf8Len_rec20 : utf8Len (process_json_record rec20 ("f")) = 20971520 := by
  rw [show rec20 = [(("k"), JValue.jstr ⟨List.replicate 20971493 'a'⟩)] from rfl]
  rw [utf8Len_narr_payload, uLen_replicate]

theorem utf8Len_rec5 : utf8Len (process_json_record rec5 ("f")) = 5242880 := by
  rw [show rec5 = [(("k"), JValue.jstr ⟨List.replicate 5242853 'a'⟩)] from rfl]
  rw [utf8Len_narr_payload, uLen_replicate]

theorem processLine_some_mk (base : String) (sz i : Nat) (odl : List String)
    (w : List (Nat × List String)) (ws : List Nat) (n : Nat) (r : RawRecord) :
    processLine base ⟨sz, i, odl, w, ws⟩ (n, some r) =
      if MAX_JSON_CHUNK_SIZE_BYTES < sz + utf8Len (process_json_record r base) ∧ 0 < sz then
        ⟨utf8Len (process_json_record r base), i + 1, [process_json_record r base],
          w ++ [(i, odl)], ws⟩
      else ⟨sz + utf8Len (process_json_record r base), i,
        odl ++ [process_json_record r base], w, ws⟩ :=
  processLine_some base ⟨sz, i, odl, w, ws⟩ n r

theorem utf8Len_joinSep (sep : String) : ∀ l : List String,
    utf8Len (joinSep sep l) = sumUtf8 l + utf8Len sep * (l.length - 1)
  | [] => by simp [joinSep, sumUtf8]; rfl
  | [x] => by simp [joinSep, sumUtf8]
  | x :: y :: xs => by
    rw [show joinSep sep (x :: y :: xs) = (x ++ sep) ++ joinSep sep (y :: xs) from rfl]
    rw [utf8Len_append, utf8Len_append, utf8Len_joinSep sep (y :: xs)]
    simp only [sumUtf8_cons, List.length_cons, Nat.add_sub_cancel, Nat.mul_succ]
    omega

theorem utf8Len_separator : utf8Len json_chunk_separator = 7 := by decide

/-! ### Helper lemmas for the normalizer refinement -/

theorem recordStep_eq (acc : List String) (kv : String × JValue) :
    recordStep acc kv = acc ++ (renderField_spec kv.1 kv.2).toList := by
  rw [recordStep, renderField_spec]
  split_ifs <;> simp

theorem foldl_recordStep (record : List (String × JValue)) (acc : List String) :
    List.foldl recordStep acc record =
      acc ++ List.filterMap (fun kv : String × JValue => renderField_spec kv.1 kv.2) record := by
  induction record generalizing acc with
  | nil => simp
  | cons kv kvs ih =>
    rw [List.foldl_cons, recordStep_eq, ih, List.filterMap_cons]
    cases h : renderField_spec kv.1 kv.2 <;> simp [h]

/-! ### Claim theorems -/

/-- Claim C1: every chunk emitted by `split_and_process_jsonl` has byte size
(the sum of the UTF-8 encoded lengths of its narratives, separators excluded)
at most `MAX_JSON_CHUNK_SIZE_BYTES`, or else it contains exactly one
narrative whose own encoded length already exceeds the ceiling. -/
theorem chunk_size_bound (lines : List (Option RawRecord)) (base : String)
    (p : Nat × List String) (hp : p ∈ (split_and_process_jsonl lines base).written) :
    sumUtf8 p.2 ≤ MAX_JSON_CHUNK_SIZE_BYTES ∨
      (p.2.length = 1 ∧ MAX_JSON_CHUNK_SIZE_BYTES < sumUtf8 p.2) := by
  rcases emitted_chunkOK lines base p hp with h | h
  · exact Or.inl h
  · by_cases hle : sumUtf8 p.2 ≤ MAX_JSON_CHUNK_SIZE_BYTES
    · exact Or.inl hle
    · exact Or.inr ⟨h, by omega⟩

/-- Witness for C1 at a concrete one-record input. -/
theorem chunk_size_bound_witness :
    sumUtf8 ((0, [("SOURCE FILE: f. The A is: x.")]) : Nat × List String).2 ≤
        MAX_JSON_CHUNK_SIZE_BYTES ∨
      (((0, [("SOURCE FILE: f. The A is: x.")]) : Nat × List String).2.length = 1 ∧
        MAX_JSON_CHUNK_SIZE_BYTES <
          sumUtf8 ((0, [("SOURCE FILE: f. The A is: x.")]) : Nat × List String).2) :=
  chunk_size_bound [some [(("a"), JValue.jstr ("x"))]] ("f")
    (0, [("SOURCE FILE: f. The A is: x.")]) (by decide)

/-- Claim C2: concatenating the narratives of all emitted chunks in emission
order reproduces exactly the ordered list of narratives derived by
`process_json_record` from the syntactically valid input lines, in input
order; only malformed lines are omitted, and the trailing chunk is
included. -/
theorem conservation (lines : List (Option RawRecord)) (base : String) :
    chunksTexts (split_and_process_jsonl lines base).written = narrativesOf lines base :=
  gathered_split lines base

/-- Claim C6: a malformed line is skipped with a warning carrying its line
position while processing continues: on a five-line input whose third line is
malformed, the output narrative sequence is exactly the narratives of lines
1, 2, 4, 5 in that order, and the logged position is that of line 3. -/
theorem malformed_line_skipped (r1 r2 r4 r5 : RawRecord) (base : String) :
    chunksTexts (split_and_process_jsonl
        [some r1, some r2, none, some r4, some r5] base).written =
      [process_json_record r1 base, process_json_record r2 base,
        process_json_record r4 base, process_json_record r5 base] ∧
      (split_and_process_jsonl [some r1, some r2, none, some r4, some r5] base).warnings =
        [2] := by
  constructor
  · rw [gathered_split]
    simp [narrativesOf, List.filterMap_cons]
  · rw [warnings_split]
    rw [show List.enum [some r1, some r2, none, some r4, some r5] =
      [((0 : Nat), some r1), (1, some r2), (2, (none : Option RawRecord)),
        (3, some r4), (4, some r5)] from rfl]
    simp only [List.foldl_cons, List.foldl_nil, warnings_processLine]
    simp [startState]

/-- Claim C7: for every record and filename, `process_json_record` returns
the `SOURCE FILE` tag followed by the rendered sentences joined by single
spaces, where reserved keys contribute nothing, a dict under the key
`patient_details` renders the labeled patient sentence with `Unknown` and
`N/A` placeholders, and scalar values render the title-cased sentence, as
captured by the spec-side `narrative_spec`. -/
theorem normalizer_matches_spec (record : RawRecord) (original_filename : String) :
    process_json_record record original_filename =
      narrative_spec record original_filename := by
  rw [process_json_record, narrative_spec, foldl_recordStep]
  rw [List.nil_append]

/-- Claim C10: a non-reserved field whose value is neither scalar nor a dict
under the key `patient_details` contributes nothing to the narrative. -/
theorem dropped_field_no_contribution (pre post : List (String × JValue)) (k : String)
    (v : JValue) (f : String)
    (hres : ¬(k = ("id") ∨ k = ("timestamp") ∨ k = ("internal_hash")))
    (hscal : isScalar v = false)
    (hpd : ¬(k = ("patient_details") ∧ isDict v = true)) :
    process_json_record (pre ++ (k, v) :: post) f = process_json_record (pre ++ post) f := by
  have hnone : renderField_spec k v = none := by
    rw [renderField_spec, if_neg hres, if_neg hpd, if_neg (by simp [hscal])]
  rw [process_json_record, process_json_record, List.foldl_append, List.foldl_append,
    List.foldl_cons, recordStep_eq]
  simp [hnone]

/-- Witness for C10: a list-valued field under a fresh key is silently
omitted. -/
theorem dropped_field_no_contribution_witness :
    process_json_record [(("a"), JValue.jstr ("x")), (("notes"), JValue.jlist [])] ("f") =
      process_json_record [(("a"), JValue.jstr ("x"))] ("f") :=
  dropped_field_no_contribution [(("a"), JValue.jstr ("x"))] [] ("notes")
    (JValue.jlist []) ("f") (by decide) (by decide) (by decide)

/-- Claim C3 counterexample: on a record whose narrative contains the trigger
token `patient` and the identifying literal `John Smith`, the single-process
pipeline emits the narrative verbatim — the substitution table is not applied
(the literal is still present), the audit marker is not prepended, and the
emitted text differs from what the redaction step would produce. -/
theorem no_redaction_in_single_process :
    (split_and_process_jsonl [some rec_patient] ("f")).written = [(0, [narrative_patient])] ∧
      containsTrigger narrative_patient = true ∧
      containsSub narrative_patient.data (("John Smith").data) = true ∧
      redaction_marker.data.isPrefixOf narrative_patient.data = false ∧
      process_content_udf narrative_patient (".jsonl") ≠ narrative_patient :=
  ⟨by decide, by decide, by decide, by decide, by decide⟩

/-- Claim C3 amended: the single-process pipeline applies no redaction — its
emitted texts are exactly the `process_json_record` narratives — while in the
distributed pipeline (`process_content_udf`) every text containing a trigger
token has the substitution applied and the audit marker prepended. -/
theorem redaction_only_in_udf :
    (∀ lines base, chunksTexts (split_and_process_jsonl lines base).written =
      narrativesOf lines base) ∧
      ∀ text ext, ¬(ext = (".docx") ∨ ext = (".pptx")) →
        ¬(ext = (".xlsx") ∨ ext = (".csv")) →
        containsTrigger text = true →
        process_content_udf text ext =
          redaction_marker ++ pyReplace text ("John Smith") ("[PHI_NAME_MASKED]") := by
  refine ⟨gathered_split, ?_⟩
  intro text ext h1 h2 h3
  simp only [process_content_udf]
  rw [if_neg h1, if_neg h2, if_pos h3]

/-- Witness for the amended C3 at a concrete triggering text. -/
theorem redaction_only_in_udf_witness :
    process_content_udf ("ssn 1") (".txt") = ("[HIPAA REDACTION APPLIED] ssn 1") := by
  rw [redaction_only_in_udf.2 ("ssn 1") (".txt") (by decide) (by decide) (by decide)]
  decide

/-- Claim C8: file classification is deterministic on the lowered filename,
case-insensitive, first-match-wins over the fixed extension tables, and in
particular quarantines `photo.JPG` and leaves `notes.csv` unknown. -/
theorem file_classification :
    (∀ s f g, lowerStr f = lowerStr g → classify_file s f = classify_file s g) ∧
      (∀ s f, endsWithAny (lowerStr f) image_extensions = true →
        classify_file s f = Disposition.quarantine) ∧
      (∀ s f, endsWithAny (lowerStr f) image_extensions = false →
        endsWithAny (lowerStr f) document_extensions = true →
        classify_file s f = Disposition.passThrough) ∧
      (∀ s f, endsWithAny (lowerStr f) image_extensions = false →
        endsWithAny (lowerStr f) document_extensions = false →
        (".jsonl").data.isSuffixOf (lowerStr f).data = true →
        containsSub s.data (("json/").data) = true →
        classify_file s f = Disposition.deferred) ∧
      (∀ s f, endsWithAny (lowerStr f) image_extensions = false →
        endsWithAny (lowerStr f) document_extensions = false →
        ¬((".jsonl").data.isSuffixOf (lowerStr f).data = true ∧
          containsSub s.data (("json/").data) = true) →
        classify_file s f = Disposition.unknown) ∧
      (∀ s, classify_file s ("photo.JPG") = Disposition.quarantine) ∧
      (∀ s, classify_file s ("notes.csv") = Disposition.unknown) := by
  refine ⟨?_, ?_, ?_, ?_, ?_, ?_, ?_⟩
  · intro s f g h
    rw [classify_file, classify_file, h]
  · intro s f h
    rw [classify_file, if_pos h]
  · intro s f h1 h2
    rw [classify_file, if_neg (by simp [h1]), if_pos h2]
  · intro s f h1 h2 h3 h4
    rw [classify_file, if_neg (by simp [h1]), if_neg (by simp [h2]), if_pos ⟨h3, h4⟩]
  · intro s f h1 h2 h3
    rw [classify_file, if_neg (by simp [h1]), if_neg (by simp [h2]), if_neg h3]
  · intro s
    rw [classify_file, if_pos (by decide)]
  · intro s
    rw [classify_file, if_neg (by decide), if_neg (by decide),
      if_neg (fun hc => absurd hc.1 (by decide))]

/-- Witness for C8: case-insensitivity and the two concrete scenarios. -/
theorem file_classification_witness :
    classify_file ("d") ("A.PNG") = classify_file ("d") ("a.png") ∧
      classify_file ("d") ("photo.JPG") = Disposition.quarantine ∧
      classify_file ("d") ("notes.csv") = Disposition.unknown :=
  ⟨file_classification.1 ("d") ("A.PNG") ("a.png") (by decide),
    file_classification.2.2.2.2.2.1 ("d"),
    file_classification.2.2.2.2.2.2 ("d")⟩

/-- Claim C5: with three records whose narratives encode to 20 MB, 20 MB and
5 MB and the 40 MB ceiling, the accumulator emits chunk 0 with the first two
narratives (their byte sum is exactly the ceiling, and the strict `>` check
does not fire on equality) and chunk 1 with the third narrative alone. -/
theorem scenario_A (r1 r2 r3 : RawRecord) (base : String)
    (h1 : utf8Len (process_json_record r1 base) = 20971520)
    (h2 : utf8Len (process_json_record r2 base) = 20971520)
    (h3 : utf8Len (process_json_record r3 base) = 5242880) :
    (split_and_process_jsonl [some r1, some r2, some r3] base).written =
      [(0, [process_json_record r1 base, process_json_record r2 base]),
        (1, [process_json_record r3 base])] ∧
      sumUtf8 [process_json_record r1 base, process_json_record r2 base] =
        MAX_JSON_CHUNK_SIZE_BYTES := by
  constructor
  · have e1 : List.foldl (processLine base) (⟨0, 0, [], [], []⟩ : EtlState)
        [((0 : Nat), some r1), (1, some r2), (2, some r3)] =
        ⟨utf8Len (process_json_record r3 base), 0 + 1, [process_json_record r3 base],
          [] ++ [(0, ([] ++ [process_json_record r1 base]) ++ [process_json_record r2 base])],
          []⟩ := by
      rw [List.foldl_cons, processLine_some_mk, if_neg (fun h => Nat.lt_irrefl 0 h.2)]
      rw [List.foldl_cons, processLine_some_mk, if_neg (by rw [h1, h2]; decide)]
      rw [List.foldl_cons, processLine_some_mk, if_pos (by rw [h1, h2, h3]; decide)]
      rw [List.foldl_nil]
    rw [split_and_process_jsonl]
    rw [show List.enum [some r1, some r2, some r3] =
      [((0 : Nat), some r1), (1, some r2), (2, some r3)] from rfl]
    rw [show startState = (⟨0, 0, [], [], []⟩ : EtlState) from rfl]
    rw [e1, if_neg (by simp)]
    simp
  · rw [sumUtf8_cons, sumUtf8_cons, sumUtf8_nil, h1, h2]
    decide

/-- Witness for C5 at concrete records built from 20971493- and
5242853-character payloads. -/
theorem scenario_A_witness :
    (split_and_process_jsonl [some rec20, some rec20, some rec5] ("f")).written =
      [(0, [process_json_record rec20 ("f"), process_json_record rec20 ("f")]),
        (1, [process_json_record rec5 ("f")])] ∧
      sumUtf8 [process_json_record rec20 ("f"), process_json_record rec20 ("f")] =
        MAX_JSON_CHUNK_SIZE_BYTES :=
  scenario_A rec20 rec20 rec5 ("f") utf8Len_rec20 utf8Len_rec20 utf8Len_rec5

/-- Two records of exactly 20 MB each accumulate into one emitted chunk. -/
theorem run_two_rec20 :
    (split_and_process_jsonl [some rec20, some rec20] ("f")).written =
      [(0, [process_json_record rec20 ("f"), process_json_record rec20 ("f")])] := by
  have hL := utf8Len_rec20
  have e1 : List.foldl (processLine ("f")) (⟨0, 0, [], [], []⟩ : EtlState)
      [((0 : Nat), some rec20), (1, some rec20)] =
      ⟨0 + utf8Len (process_json_record rec20 ("f")) + utf8Len (process_json_record rec20 ("f")),
        0, ([] ++ [process_json_record rec20 ("f")]) ++ [process_json_record rec20 ("f")],
        [], []⟩ := by
    rw [List.foldl_cons, processLine_some_mk, if_neg (fun h => Nat.lt_irrefl 0 h.2)]
    rw [List.foldl_cons, processLine_some_mk, if_neg (by rw [hL]; decide)]
    rw [List.foldl_nil]
  rw [split_and_process_jsonl]
  rw [show List.enum [some rec20, some rec20] = [((0 : Nat), some rec20), (1, some rec20)] from rfl]
  rw [show startState = (⟨0, 0, [], [], []⟩ : EtlState) from rfl]
  rw [e1, if_neg (by simp)]
  simp

/-- Claim C4 counterexample: a run emitting a chunk of two 20 MB narratives
(byte counter exactly at the ceiling, so no rollover) produces a file whose
written bytes — the narratives joined by the seven-byte separator — exceed
`MAX_JSON_CHUNK_SIZE_BYTES` by seven bytes. -/
theorem artifact_byte_ceiling_counterexample :
    (split_and_process_jsonl [some rec20, some rec20] ("f")).written =
      [(0, [process_json_record rec20 ("f"), process_json_record rec20 ("f")])] ∧
      sumUtf8 [process_json_record rec20 ("f"), process_json_record rec20 ("f")] =
        MAX_JSON_CHUNK_SIZE_BYTES ∧
      utf8Len (write_json_chunk_content
        [process_json_record rec20 ("f"), process_json_record rec20 ("f")]) = 41943047 ∧
      MAX_JSON_CHUNK_SIZE_BYTES < utf8Len (write_json_chunk_content
        [process_json_record rec20 ("f"), process_json_record rec20 ("f")]) := by
  have hL := utf8Len_rec20
  have hc : utf8Len (write_json_chunk_content
      [process_json_record rec20 ("f"), process_json_record rec20 ("f")]) = 41943047 := by
    rw [show write_json_chunk_content
        [process_json_record rec20 ("f"), process_json_record rec20 ("f")] =
      (process_json_record rec20 ("f") ++ json_chunk_separator) ++
        process_json_record rec20 ("f") from rfl]
    rw [utf8Len_append, utf8Len_append, utf8Len_separator, hL]
  refine ⟨run_two_rec20, ?_, hc, ?_⟩
  · rw [sumUtf8_cons, sumUtf8_cons, sumUtf8_nil, hL]
    decide
  · rw [hc]
    decide

/-- Claim C4 amended: the bytes written for a chunk file equal the byte sum
of its narratives plus seven bytes per separator, so an emitted chunk's file
is at most `MAX_JSON_CHUNK_SIZE_BYTES` plus the separator overhead — except
that a singleton chunk may exceed the ceiling by any amount. -/
theorem artifact_byte_ceiling_amended (lines : List (Option RawRecord)) (base : String)
    (p : Nat × List String) (hp : p ∈ (split_and_process_jsonl lines base).written) :
    utf8Len (write_json_chunk_content p.2) = sumUtf8 p.2 + 7 * (p.2.length - 1) ∧
      (utf8Len (write_json_chunk_content p.2) ≤
          MAX_JSON_CHUNK_SIZE_BYTES + 7 * (p.2.length - 1) ∨
        p.2.length = 1) := by
  have heq : utf8Len (write_json_chunk_content p.2) = sumUtf8 p.2 + 7 * (p.2.length - 1) := by
    rw [write_json_chunk_content, utf8Len_joinSep, utf8Len_separator]
  refine ⟨heq, ?_⟩
  rcases emitted_chunkOK lines base p hp with h | h
  · left
    omega
  · right
    exact h

/-- Witness for the amended C4 at a concrete one-record input. -/
theorem artifact_byte_ceiling_amended_witness :
    utf8Len (write_json_chunk_content
        ((0, [("SOURCE FILE: f. The B is: y.")]) : Nat × List String).2) =
      sumUtf8 ((0, [("SOURCE FILE: f. The B is: y.")]) : Nat × List String).2 +
        7 * (((0, [("SOURCE FILE: f. The B is: y.")]) : Nat × List String).2.length - 1) ∧
      (utf8Len (write_json_chunk_content
          ((0, [("SOURCE FILE: f. The B is: y.")]) : Nat × List String).2) ≤
        MAX_JSON_CHUNK_SIZE_BYTES +
          7 * (((0, [("SOURCE FILE: f. The B is: y.")]) : Nat × List String).2.length - 1) ∨
        ((0, [("SOURCE FILE: f. The B is: y.")]) : Nat × List String).2.length = 1) :=
  artifact_byte_ceiling_amended [some [(("b"), JValue.jstr ("y"))]] ("f")
    (0, [("SOURCE FILE: f. The B is: y.")]) (by decide)

/-- Strict monotonicity of the digit characters on single digits. -/
theorem digitChar_lt : ∀ a < 10, ∀ b < 10, a < b → Nat.digitChar a < Nat.digitChar b := by
  decide

/-- Lexicographic comparison of two three-digit strings with a common
suffix. -/
theorem digits_lex (s : List Char) (a2 a1 a0 b2 b1 b0 : Nat)
    (ha2 : a2 < 10) (ha1 : a1 < 10) (ha0 : a0 < 10)
    (hb2 : b2 < 10) (hb1 : b1 < 10) (hb0 : b0 < 10)
    (hlex : a2 < b2 ∨ a2 = b2 ∧ (a1 < b1 ∨ a1 = b1 ∧ a0 < b0)) :
    List.Lex (· < ·) (Nat.digitChar a2 :: Nat.digitChar a1 :: Nat.digitChar a0 :: s)
      (Nat.digitChar b2 :: Nat.digitChar b1 :: Nat.digitChar b0 :: s) := by
  rcases hlex with h | ⟨rfl, h | ⟨rfl, h⟩⟩
  · exact List.Lex.rel (digitChar_lt _ ha2 _ hb2 h)
  · exact List.Lex.cons (List.Lex.rel (digitChar_lt _ ha1 _ hb1 h))
  · exact List.Lex.cons (List.Lex.cons (List.Lex.rel (digitChar_lt _ ha0 _ hb0 h)))

/-- Character-list shape of an artifact filename for an index below 1000. -/
theorem filename_data (base : String) (n : Nat) (hn : n < 1000) :
    (write_json_chunk_filename base n).data =
      (base.data ++ ("_part_").data) ++
        (Nat.digitChar (n / 100) :: Nat.digitChar (n / 10 % 10) :: Nat.digitChar (n % 10) ::
          (".txt").data) := by
  rw [write_json_chunk_filename, format03d, if_pos hn]
  rw [data_append, data_append, data_append]
  rw [List.append_assoc, List.append_assoc, List.append_assoc]
  rfl

/-- Claim C9 counterexample: the zero padding stops ordering filenames at
index 1000 — the name of chunk 1000 sorts lexicographically before the name
of chunk 999. -/
theorem filename_order_counterexample :
    (999 : Nat) < 1000 ∧
      ¬(write_json_chunk_filename ("b") 999 < write_json_chunk_filename ("b") 1000) ∧
      write_json_chunk_filename ("b") 1000 < write_json_chunk_filename ("b") 999 := by
  refine ⟨by decide, ?_, ?_⟩ <;> rw [String.lt_iff_toList_lt] <;> decide

/-- Claim C9 amended: artifact filenames use the sequential zero-padded index
`base_part_NNN.txt`, and lexicographic filename order agrees with emission
order as long as every index stays below 1000 (runs of at most 1000 emitted
chunks); the counterexample shows the guarantee stops at index 1000. -/
theorem filename_order_amended (base : String) (i j : Nat) (hij : i < j) (hj : j < 1000) :
    write_json_chunk_filename base i < write_json_chunk_filename base j := by
  rw [String.lt_iff_toList_lt]
  show List.Lex _ (write_json_chunk_filename base i).data
    (write_json_chunk_filename base j).data
  rw [filename_data base i (by omega), filename_data base j hj]
  apply List.Lex.append_left
  apply digits_lex <;> try omega

/-- Witness for the amended C9 at concrete indices. -/
theorem filename_order_amended_witness :
    write_json_chunk_filename ("b") 1 < write_json_chunk_filename ("b") 2 :=
  filename_order_amended ("b") 1 2 (by decide) (by decide)
